import Mathlib

/-!
Verification of the capacity scheduler (`Model_rate_manager` in
`baselines/HeteroFL/HeteroFL/utils.py`) and the evaluation callback
(`gen_evaluate_fn`/`evaluate` in `baselines/heterofl/heterofl/server.py`)
of the HeteroFL baseline.

The Python code is shallowly embedded:
* floats that are only copied around (model rates, losses, accuracies) are
  rationals;
* a raised Python exception is the `error` / `exn` constructor carrying the
  exception's name;
* `None` returned by `create_model_rate_mapping` is the `pyNone` constructor;
* the random draw of `torch.multinomial` in dynamic mode is an explicit
  oracle argument (a list of category indices);
* the side effects of the evaluation callback (parameter load, checkpoint
  write, statistics pass, per-client tests, global test) are recorded as an
  event trace, and the external `test` function is an oracle argument.
-/

namespace HeteroFL

/-- Result of `Model_rate_manager.create_model_rate_mapping`: a client→rate
mapping, Python `None` (unknown split mode), or a raised exception. -/
inductive MapResult where
  | mapping : List ℚ → MapResult
  | pyNone : MapResult
  | error : String → MapResult
deriving DecidableEq

/-- The `Model_rate_manager` object state: `model_split_mode`, the
`model_split_rate` catalogue (a dict from level character to rate), and
`model_mode` after `__init__` has split the spec string on `"-"`. -/
structure Model_rate_manager where
  model_split_mode : String
  model_split_rate : List (Char × ℚ)
  model_mode : List String
deriving DecidableEq

/-- `Model_rate_manager.__init__`: stores the fields and replaces
`model_mode` by `model_mode.split("-")`. -/
def Model_rate_manager.init (model_split_mode : String)
    (model_split_rate : List (Char × ℚ)) (model_mode : String) :
    Model_rate_manager :=
  { model_split_mode := model_split_mode
    model_split_rate := model_split_rate
    model_mode := model_mode.splitOn "-" }

/-- Helper for `pyInt`: accumulate decimal digits left to right. -/
def pyIntGo : List Char → Nat → Option Nat
  | [], acc => some acc
  | c :: rest, acc =>
    if c.isDigit then pyIntGo rest (10 * acc + (c.toNat - 48)) else none

/-- Python `int(...)` on the digit substring `m[1:]` of a mode-spec token
(tokens come from splitting on `"-"`, so no sign is possible): `none` on the
empty string or any non-digit character models the raised `ValueError`. -/
def pyInt : List Char → Option Nat
  | [] => none
  | cs => pyIntGo cs 0

/-- One iteration of the parsing loop
`mode_rate.append(self.model_split_rate[m[0]]); proportion.append(int(m[1:]))`:
`m[0]` on an empty token raises `IndexError`, a level missing from the
catalogue raises `KeyError`, a non-numeric proportion raises `ValueError`. -/
def parseToken (rate_table : List (Char × ℚ)) (m : String) :
    Except String (ℚ × Nat) :=
  match m.toList with
  | [] => .error "IndexError"
  | c :: rest =>
    match rate_table.lookup c with
    | none => .error "KeyError"
    | some r =>
      match pyInt rest with
      | none => .error "ValueError"
      | some p => .ok (r, p)

/-- The parsing loop `for m in self.model_mode`, collecting the parallel
lists `mode_rate` and `proportion` as a list of pairs; the first failing
token raises. -/
def parseTokens (rate_table : List (Char × ℚ)) :
    List String → Except String (List (ℚ × Nat))
  | [] => .ok []
  | m :: ms =>
    match parseToken rate_table m with
    | .error e => .error e
    | .ok rp =>
      match parseTokens rate_table ms with
      | .error e => .error e
      | .ok rest => .ok (rp :: rest)

/-- `sum(proportion)`. -/
def propSum : List (ℚ × Nat) → Nat
  | [] => 0
  | rp :: rest => rp.2 + propSum rest

/-- The emission loop
`client_model_rate += np.repeat(mode_rate[i], b * proportion[i]).tolist()`
over all levels, with `b = num_users_proportion`. -/
def fixBlocks (pairs : List (ℚ × Nat)) (b : Nat) : List ℚ :=
  match pairs with
  | [] => []
  | rp :: rest => List.replicate (b * rp.2) rp.1 ++ fixBlocks rest b

/-- Fix-mode body of `create_model_rate_mapping` after parsing:
`num_users_proportion = num_users // sum(proportion)` (ZeroDivisionError on
zero sum), block emission, then the pad
`client_model_rate + [client_model_rate[-1] for _ in range(num_users - len)]`
whose `[-1]` indexing raises IndexError on an empty list when the range is
nonempty. -/
def fixAssign (pairs : List (ℚ × Nat)) (num_users : Nat) : MapResult :=
  if propSum pairs = 0 then .error "ZeroDivisionError"
  else
    let emitted := fixBlocks pairs (num_users / propSum pairs)
    if num_users ≤ emitted.length then .mapping emitted
    else
      match emitted.getLast? with
      | none => .error "IndexError"
      | some last =>
        .mapping (emitted ++ List.replicate (num_users - emitted.length) last)

/-- `np.array(mode_rate)[rate_idx]` for the dynamic branch: map each drawn
category index to its rate; an out-of-range index raises IndexError. -/
def indexRates (mode_rate : List ℚ) : List Nat → Except String (List ℚ)
  | [] => .ok []
  | i :: rest =>
    match mode_rate[i]? with
    | none => .error "IndexError"
    | some r =>
      match indexRates mode_rate rest with
      | .error e => .error e
      | .ok rs => .ok (r :: rs)

/-- Dynamic-mode body of `create_model_rate_mapping` after parsing: the
proportions are normalized and `torch.multinomial` draws `num_users`
category indices (the oracle `draw`); a zero proportion sum makes the
normalized distribution invalid and `torch.multinomial` raises. -/
def dynamicAssign (pairs : List (ℚ × Nat)) (draw : List Nat) : MapResult :=
  if propSum pairs = 0 then .error "RuntimeError"
  else
    match indexRates (pairs.map Prod.fst) draw with
    | .error e => .error e
    | .ok rates => .mapping rates

/-- `Model_rate_manager.create_model_rate_mapping(num_users)`. The method
only reads `self`, so the returned object state is the receiver unchanged;
`draw` is the oracle for the dynamic-mode `torch.multinomial` sample. -/
def Model_rate_manager.create_model_rate_mapping (self : Model_rate_manager)
    (num_users : Nat) (draw : List Nat) : Model_rate_manager × MapResult :=
  (self,
    if self.model_split_mode = "fix" then
      match parseTokens self.model_split_rate self.model_mode with
      | .error e => .error e
      | .ok pairs => fixAssign pairs num_users
    else if self.model_split_mode = "dynamic" then
      match parseTokens self.model_split_rate self.model_mode with
      | .error e => .error e
      | .ok pairs => dynamicAssign pairs draw
    else .pyNone)

/-! Embedding of the evaluation callback of `server.py`. -/

/-- Observable actions of one call of the `evaluate` callback. -/
inductive EvEvent where
  | loadParams
  | saveCheckpoint (name : String)
  | statsPass
  | testClient (i : Nat)
  | testGlobal
deriving DecidableEq

/-- Outcome of one call of the `evaluate` callback: a normal return
`(loss, metrics-dict)` or a raised exception. -/
inductive EvalRet where
  | ok (loss : ℚ) (metrics : List (String × ℚ))
  | exn (msg : String)
deriving DecidableEq

/-- The `data_loaders` bundle closed over by `gen_evaluate_fn`; `L` is the
type of data loaders and `B` the type of per-client label splits. -/
structure DataLoaders (L B : Type) where
  entire_trainloader : L
  valloaders : List L
  label_split : List B
  testloader : L

/-- The loop `for i, clnt_tstldr in enumerate(data_loaders["valloaders"])`:
accumulates the per-client `test` results into the running sums; the
subscript `data_loaders["label_split"][i]` raises IndexError when `i` is out
of range. Returns the accumulated sums (or the exception) and the trace of
per-client test events performed before returning. -/
def clientLoop {L B : Type} (testFn : L → Option B → ℚ × ℚ)
    (label_split : List B) :
    Nat → List L → ℚ → ℚ → (Except String (ℚ × ℚ)) × List EvEvent
  | _, [], ll, la => (.ok (ll, la), [])
  | i, ldr :: rest, ll, la =>
    match label_split[i]? with
    | none => (.error "IndexError", [])
    | some lab =>
      let r := testFn ldr (some lab)
      let out := clientLoop testFn label_split (i + 1) rest (ll + r.1) (la + r.2)
      (out.1, EvEvent.testClient i :: out.2)

/-- The `evaluate` callback produced by `gen_evaluate_fn`.

* Rounds with `server_round % 5 != 0 and server_round < 395` return the
  sentinel `(1, {})` at once, performing no action.
* `zip(net.state_dict().keys(), parameters_ndarrays)` truncates to the
  shorter sequence, so `load_state_dict(..., strict=True)` raises (missing
  keys) exactly when the parameter list is shorter than the key list; a
  longer parameter list is silently truncated and the load succeeds.
* A checkpoint named `f"model_after_round_{server_round}.pth"` is saved when
  `server_round % 100 == 0`.
* The statistics pass over `entire_trainloader`, the per-client tests and
  the one global test are recorded as events; `testFn` is the oracle for the
  external `test` function (`none` stands for the absent `label_split`
  argument of the global call). -/
def evaluate {L B P : Type} (model_keys : List String)
    (testFn : L → Option B → ℚ × ℚ) (data_loaders : DataLoaders L B)
    (server_round : Nat) (parameters_ndarrays : List P) :
    EvalRet × List EvEvent :=
  if server_round % 5 ≠ 0 ∧ server_round < 395 then
    (.ok 1 [], [])
  else if parameters_ndarrays.length < model_keys.length then
    (.exn "RuntimeError", [])
  else
    let ckpt : List EvEvent :=
      if server_round % 100 = 0 then
        [.saveCheckpoint ("model_after_round_" ++ toString server_round ++ ".pth")]
      else []
    let base := EvEvent.loadParams :: ckpt ++ [EvEvent.statsPass]
    let lout := clientLoop testFn data_loaders.label_split 0
      data_loaders.valloaders 0 0
    match lout.1 with
    | .error e => (.exn e, base ++ lout.2)
    | .ok acc =>
      let g := testFn data_loaders.testloader none
      (.ok g.1 [("global_accuracy", g.2), ("local_loss", acc.1),
                ("local_accuracy", acc.2)],
       base ++ lout.2 ++ [EvEvent.testGlobal])

/-! Helper lemmas about the fix-mode emission loop. -/

theorem fixBlocks_length (pairs : List (ℚ × Nat)) (b : Nat) :
    (fixBlocks pairs b).length = b * propSum pairs := by
  induction pairs with
  | nil => simp [fixBlocks, propSum]
  | cons rp rest ih =>
    simp [fixBlocks, propSum, ih, Nat.mul_add]

theorem fixBlocks_zero (pairs : List (ℚ × Nat)) : fixBlocks pairs 0 = [] := by
  induction pairs with
  | nil => rfl
  | cons rp rest ih => simp [fixBlocks, ih]

/-- Unfolding of `create_model_rate_mapping` in fix mode once the parsing
loop has succeeded. -/
theorem create_fix (m : Model_rate_manager) (n : ℕ) (draw : List ℕ)
    (pairs : List (ℚ × Nat))
    (hmode : m.model_split_mode = "fix")
    (hp : parseTokens m.model_split_rate m.model_mode = .ok pairs) :
    (m.create_model_rate_mapping n draw).2 = fixAssign pairs n := by
  simp [Model_rate_manager.create_model_rate_mapping, hmode, hp]

/-- Fix mode with `num_users` an exact multiple of the proportion sum: the
division is exact, no padding happens, and the result is the block
concatenation itself. -/
theorem fixAssign_exact (pairs : List (ℚ × Nat)) (k n : ℕ)
    (hs : 0 < propSum pairs) (hn : n = k * propSum pairs) :
    fixAssign pairs n = .mapping (fixBlocks pairs k) := by
  have hS : ¬ propSum pairs = 0 := by omega
  have hdiv : n / propSum pairs = k := by
    subst hn; exact Nat.mul_div_cancel k hs
  have hlen : (fixBlocks pairs k).length = n := by
    rw [fixBlocks_length]; omega
  simp only [fixAssign, if_neg hS, hdiv]
  rw [if_pos (le_of_eq hlen.symm)]

/-- Fix mode with `propSum ≤ num_users`: the emitted blocks are nonempty,
the result pads them with their last element up to length `num_users`. -/
theorem fixAssign_pad (pairs : List (ℚ × Nat)) (n : ℕ)
    (hs : 0 < propSum pairs) (hn : propSum pairs ≤ n) :
    ∃ last,
      (fixBlocks pairs (n / propSum pairs)).getLast? = some last ∧
      fixAssign pairs n =
        .mapping (fixBlocks pairs (n / propSum pairs) ++
          List.replicate (n - (fixBlocks pairs (n / propSum pairs)).length) last) ∧
      (fixBlocks pairs (n / propSum pairs) ++
        List.replicate (n - (fixBlocks pairs (n / propSum pairs)).length) last).length
        = n := by
  have hS : ¬ propSum pairs = 0 := by omega
  have hb1 : 1 ≤ n / propSum pairs :=
    (Nat.le_div_iff_mul_le hs).mpr (by omega)
  have hlenle : (fixBlocks pairs (n / propSum pairs)).length ≤ n := by
    rw [fixBlocks_length]; exact Nat.div_mul_le_self n _
  have hne : fixBlocks pairs (n / propSum pairs) ≠ [] := by
    intro h
    have hl := fixBlocks_length pairs (n / propSum pairs)
    rw [h] at hl
    have hpos : 0 < (n / propSum pairs) * propSum pairs := Nat.mul_pos hb1 hs
    simp at hl
    omega
  refine ⟨(fixBlocks pairs (n / propSum pairs)).getLast hne,
    List.getLast?_eq_getLast_of_ne_nil hne, ?_, ?_⟩
  · simp only [fixAssign, if_neg hS]
    by_cases hcase : n ≤ (fixBlocks pairs (n / propSum pairs)).length
    · have heq : (fixBlocks pairs (n / propSum pairs)).length = n :=
        le_antisymm hlenle hcase
      rw [if_pos hcase, heq]
      simp
    · rw [if_neg hcase, List.getLast?_eq_getLast_of_ne_nil hne]
  · rw [List.length_append, List.length_replicate]
    omega

/-- Fix mode with `num_users < propSum`: `base_count` is zero, no block
emits anything, and the pad's `[-1]` subscript on the empty list raises
IndexError as soon as at least one pad element is demanded. -/
theorem fixAssign_degenerate (pairs : List (ℚ × Nat)) (n : ℕ)
    (hgt : n < propSum pairs) :
    (1 ≤ n → fixAssign pairs n = .error "IndexError") ∧
    (n = 0 → fixAssign pairs n = .mapping []) := by
  have hS : ¬ propSum pairs = 0 := by omega
  have hdiv : n / propSum pairs = 0 := Nat.div_eq_of_lt hgt
  constructor
  · intro h1
    simp only [fixAssign, if_neg hS, hdiv, fixBlocks_zero]
    rw [if_neg (by simp; omega)]
    rfl
  · intro h0
    subst h0
    simp only [fixAssign, if_neg hS, hdiv, fixBlocks_zero]
    rfl

/-- C1 counterexample: catalogue `a ↦ 1`, mode-spec `"a2"` (proportion sum
2), `num_users = 1`: the claim promises a length-1 mapping filled with the
last level's rate, but the code raises IndexError — the proportional prefix
is empty and the pad comprehension evaluates `[][-1]`. -/
theorem claim_C1_counterexample :
    ((Model_rate_manager.mk "fix" [('a', 1)] ["a2"]).create_model_rate_mapping
      1 []).2 = MapResult.error "IndexError" := rfl

/-- C1 amended: in fix mode with `sum(proportions) > num_users`, the call
raises IndexError whenever `num_users ≥ 1` (the empty prefix's `[-1]`
subscript); only `num_users = 0` avoids the crash and returns the empty
mapping. -/
theorem claim_C1_amended (m : Model_rate_manager) (pairs : List (ℚ × Nat))
    (n : ℕ) (draw : List ℕ)
    (hmode : m.model_split_mode = "fix")
    (hp : parseTokens m.model_split_rate m.model_mode = .ok pairs)
    (hgt : n < propSum pairs) :
    (1 ≤ n → (m.create_model_rate_mapping n draw).2 = .error "IndexError") ∧
    (n = 0 → (m.create_model_rate_mapping n draw).2 = .mapping []) := by
  rw [create_fix m n draw pairs hmode hp]
  exact fixAssign_degenerate pairs n hgt

/-- C1 witness: catalogue `a ↦ 1`, mode-spec `"a5"`: `num_users = 3` raises
IndexError, `num_users = 0` returns the empty mapping. -/
theorem claim_C1_witness :
    ((Model_rate_manager.mk "fix" [('a', 1)] ["a5"]).create_model_rate_mapping
      3 []).2 = MapResult.error "IndexError" ∧
    ((Model_rate_manager.mk "fix" [('a', 1)] ["a5"]).create_model_rate_mapping
      0 []).2 = MapResult.mapping [] :=
  ⟨(claim_C1_amended _ [(1, 5)] 3 [] rfl (by rfl) (by decide)).1 (by decide),
   (claim_C1_amended _ [(1, 5)] 0 [] rfl (by rfl) (by decide)).2 rfl⟩

/-- C4: in fix mode with `num_users = k * sum(proportions)` (k ≥ 1, valid
parsed spec), the result is exactly the concatenation, in mode-spec order,
of one contiguous block per level holding `k * proportion[level]` copies of
that level's rate. -/
theorem claim_C4 (m : Model_rate_manager) (pairs : List (ℚ × Nat))
    (k num_users : ℕ) (draw : List ℕ)
    (hmode : m.model_split_mode = "fix")
    (hp : parseTokens m.model_split_rate m.model_mode = .ok pairs)
    (hs : 0 < propSum pairs) (hk : 1 ≤ k)
    (hn : num_users = k * propSum pairs) :
    (m.create_model_rate_mapping num_users draw).2 =
      MapResult.mapping (fixBlocks pairs k) := by
  rw [create_fix m num_users draw pairs hmode hp]
  exact fixAssign_exact pairs k num_users hs hn

/-- C4 witness: catalogue `a ↦ 1, b ↦ 1/2`, mode-spec `"a1-b1"`,
`num_users = 10`: five clients at rate 1 followed by five at rate 1/2. -/
theorem claim_C4_witness :
    ((Model_rate_manager.mk "fix" [('a', 1), ('b', 1/2)]
      ["a1", "b1"]).create_model_rate_mapping 10 []).2 =
      MapResult.mapping [1, 1, 1, 1, 1, 1/2, 1/2, 1/2, 1/2, 1/2] := by
  rw [claim_C4 _ [(1, 1), (1/2, 1)] 5 10 [] rfl (by rfl) (by decide)
    (by decide) (by decide)]
  rfl

/-- C5 counterexample: catalogue `a ↦ 1, b ↦ 1/2`, mode-spec `"a2-b0"`
(final level has proportion 0), `num_users = 5`: the emitted prefix is
`[1,1,1,1]` and the one padded position receives rate 1 — the last *emitted*
rate — not the final mode-spec level's rate 1/2 as the claim states. -/
theorem claim_C5_counterexample :
    ((Model_rate_manager.mk "fix" [('a', 1), ('b', 1/2)]
      ["a2", "b0"]).create_model_rate_mapping 5 []).2 =
      MapResult.mapping [1, 1, 1, 1, 1] ∧
    ([('a', (1 : ℚ)), ('b', 1/2)].lookup 'b' = some (1/2 : ℚ)) ∧
    (1 : ℚ) ≠ 1/2 :=
  ⟨rfl, rfl, by norm_num⟩

/-- C5 amended: in fix mode with `0 < sum(proportions) ≤ num_users`, the
result has length exactly `num_users` and every padded tail position holds
the last element of the emitted proportional prefix — the rate of the last
level that contributed at least one client — which is the final mode-spec
level's rate only when that level's block is nonempty. -/
theorem claim_C5_amended (m : Model_rate_manager) (pairs : List (ℚ × Nat))
    (n : ℕ) (draw : List ℕ)
    (hmode : m.model_split_mode = "fix")
    (hp : parseTokens m.model_split_rate m.model_mode = .ok pairs)
    (hs : 0 < propSum pairs) (hn : propSum pairs ≤ n) :
    ∃ last,
      (fixBlocks pairs (n / propSum pairs)).getLast? = some last ∧
      (m.create_model_rate_mapping n draw).2 =
        MapResult.mapping (fixBlocks pairs (n / propSum pairs) ++
          List.replicate (n - (fixBlocks pairs (n / propSum pairs)).length) last) ∧
      (fixBlocks pairs (n / propSum pairs) ++
        List.replicate (n - (fixBlocks pairs (n / propSum pairs)).length) last).length
        = n := by
  rw [create_fix m n draw pairs hmode hp]
  exact fixAssign_pad pairs n hs hn

/-- C5 witness: catalogue `a ↦ 1, b ↦ 1/2`, mode-spec `"a2-b0"`,
`num_users = 5`: the padded result exists, has length 5, and its pad value
is the prefix's last element. -/
theorem claim_C5_witness :
    ∃ last,
      (fixBlocks [((1 : ℚ), 2), (1/2, 0)]
        (5 / propSum [((1 : ℚ), 2), (1/2, 0)])).getLast? = some last ∧
      ((Model_rate_manager.mk "fix" [('a', 1), ('b', 1/2)]
        ["a2", "b0"]).create_model_rate_mapping 5 []).2 =
        MapResult.mapping (fixBlocks [((1 : ℚ), 2), (1/2, 0)]
          (5 / propSum [((1 : ℚ), 2), (1/2, 0)]) ++
          List.replicate (5 - (fixBlocks [((1 : ℚ), 2), (1/2, 0)]
            (5 / propSum [((1 : ℚ), 2), (1/2, 0)])).length) last) ∧
      (fixBlocks [((1 : ℚ), 2), (1/2, 0)]
        (5 / propSum [((1 : ℚ), 2), (1/2, 0)]) ++
        List.replicate (5 - (fixBlocks [((1 : ℚ), 2), (1/2, 0)]
          (5 / propSum [((1 : ℚ), 2), (1/2, 0)])).length) last).length = 5 :=
  claim_C5_amended _ [(1, 2), (1/2, 0)] 5 [] rfl (by rfl) (by decide)
    (by decide)

/-- C8: any `model_split_mode` other than `"fix"` and `"dynamic"` makes
`create_model_rate_mapping` return Python `None` without raising. -/
theorem claim_C8 (m : Model_rate_manager) (n : ℕ) (draw : List ℕ)
    (h1 : m.model_split_mode ≠ "fix") (h2 : m.model_split_mode ≠ "dynamic") :
    (m.create_model_rate_mapping n draw).2 = MapResult.pyNone := by
  simp [Model_rate_manager.create_model_rate_mapping, h1, h2]

/-- C8 witness: `split_mode = "bogus"` returns the null sentinel. -/
theorem claim_C8_witness :
    ((Model_rate_manager.mk "bogus" [('a', 1)] ["a1"]).create_model_rate_mapping
      7 []).2 = MapResult.pyNone :=
  claim_C8 _ 7 [] (by decide) (by decide)

/-- C10: `create_model_rate_mapping` never mutates the manager: the object
state after any call — fix, dynamic, or unknown mode — is the receiver
itself, so repeated calls always start from the construction-time
configuration. -/
theorem claim_C10 (m : Model_rate_manager) (n : ℕ) (draw : List ℕ) :
    (m.create_model_rate_mapping n draw).1 = m := rfl

/-! Helper lemmas about the per-client accumulation loop. -/

/-- Every event emitted by the per-client loop is a per-client test. -/
theorem clientLoop_events {L B : Type} (testFn : L → Option B → ℚ × ℚ)
    (label_split : List B) :
    ∀ (ldrs : List L) (i : ℕ) (ll la : ℚ),
      ∀ e ∈ (clientLoop testFn label_split i ldrs ll la).2,
        ∃ j, e = EvEvent.testClient j := by
  intro ldrs
  induction ldrs with
  | nil =>
    intro i ll la e he
    simp [clientLoop] at he
  | cons ldr rest ih =>
    intro i ll la e he
    cases hget : label_split[i]? with
    | none =>
      simp only [clientLoop, hget] at he
      simp at he
    | some lab =>
      simp only [clientLoop, hget] at he
      simp at he
      rcases he with h | h
      · exact ⟨i, h⟩
      · exact ih (i + 1) _ _ e h

/-- When the label-split list covers all remaining loaders, the per-client
loop succeeds, returning the accumulated sums of the per-client test
results and one `testClient` event per loader, in index order. -/
theorem clientLoop_ok {L B : Type} (testFn : L → Option B → ℚ × ℚ)
    (label_split : List B) :
    ∀ (ldrs : List L) (i : ℕ) (ll la : ℚ) (rest_labels : List B),
      label_split.drop i = rest_labels →
      ldrs.length ≤ rest_labels.length →
      clientLoop testFn label_split i ldrs ll la =
        (.ok (ll + ((ldrs.zip rest_labels).map
                fun p => (testFn p.1 (some p.2)).1).sum,
              la + ((ldrs.zip rest_labels).map
                fun p => (testFn p.1 (some p.2)).2).sum),
         (List.range' i ldrs.length).map EvEvent.testClient) := by
  intro ldrs
  induction ldrs with
  | nil =>
    intro i ll la rest_labels hd hlen
    simp [clientLoop]
  | cons ldr rest ih =>
    intro i ll la rest_labels hd hlen
    cases rest_labels with
    | nil => simp at hlen
    | cons b labels2 =>
      have hi : i < label_split.length := by
        have hlen2 := congrArg List.length hd
        simp [List.length_drop] at hlen2
        omega
      rw [List.drop_eq_getElem_cons hi] at hd
      injection hd with h1 h2
      have hget : label_split[i]? = some b := by
        rw [List.getElem?_eq_getElem hi, h1]
      have hlen3 : rest.length ≤ labels2.length := by
        simp at hlen
        omega
      simp only [clientLoop, hget]
      rw [ih (i + 1) _ _ labels2 h2 hlen3]
      simp [List.range'_succ, add_assoc]

/-- On a qualifying round with a parameter list covering the model keys and
a label-split list covering the client loaders, `evaluate` performs the
complete pass: load, optional checkpoint, statistics pass, one test per
client loader (summing the results), one global test. -/
theorem evaluate_full {L B P : Type} (model_keys : List String)
    (testFn : L → Option B → ℚ × ℚ) (dl : DataLoaders L B)
    (r : ℕ) (params : List P)
    (hq : ¬(r % 5 ≠ 0 ∧ r < 395))
    (h1 : model_keys.length ≤ params.length)
    (h2 : dl.valloaders.length ≤ dl.label_split.length) :
    evaluate model_keys testFn dl r params =
      (.ok (testFn dl.testloader none).1
        [("global_accuracy", (testFn dl.testloader none).2),
         ("local_loss", ((dl.valloaders.zip dl.label_split).map
            fun p => (testFn p.1 (some p.2)).1).sum),
         ("local_accuracy", ((dl.valloaders.zip dl.label_split).map
            fun p => (testFn p.1 (some p.2)).2).sum)],
       EvEvent.loadParams ::
         (if r % 100 = 0 then
            [EvEvent.saveCheckpoint
              ("model_after_round_" ++ toString r ++ ".pth")]
          else []) ++
         [EvEvent.statsPass] ++
         (List.range' 0 dl.valloaders.length).map EvEvent.testClient ++
         [EvEvent.testGlobal]) := by
  have hcl := clientLoop_ok testFn dl.label_split dl.valloaders 0 0 0
    dl.label_split (by simp) h2
  have hnl : ¬ params.length < model_keys.length := by omega
  simp only [evaluate, if_neg hq, if_neg hnl, hcl]
  simp

/-- C2 counterexample: a model with one parameter slot, a parameter list of
length two, qualifying round 0: the claim promises an immediate failure on
the length mismatch, but the code truncates the zip, loads the model from
the first array, writes the round-0 checkpoint, and returns full metrics. -/
theorem claim_C2_counterexample :
    evaluate ["w"] (fun (_ : ℕ) (_ : Option ℕ) => ((2 : ℚ), 3))
      (DataLoaders.mk 0 [] [] 1) 0 [(5 : ℚ), 7] =
      (.ok 2 [("global_accuracy", 3), ("local_loss", 0),
              ("local_accuracy", 0)],
       [EvEvent.loadParams, EvEvent.saveCheckpoint "model_after_round_0.pth",
        EvEvent.statsPass, EvEvent.testGlobal]) := by
  have h := evaluate_full ["w"] (fun (_ : ℕ) (_ : Option ℕ) => ((2 : ℚ), 3))
    (DataLoaders.mk 0 [] [] 1) 0 [(5 : ℚ), 7] (by decide) (by decide)
    (by decide)
  rw [h]
  rfl

/-- C2 amended: on a qualifying round the evaluate callback raises on the
parameter load if and only if the supplied parameter sequence is *shorter*
than the model's parameter count (missing keys under `strict=True`); a
longer sequence is silently truncated by `zip` and the load proceeds. -/
theorem claim_C2_amended {L B P : Type} (model_keys : List String)
    (testFn : L → Option B → ℚ × ℚ) (dl : DataLoaders L B)
    (r : ℕ) (params : List P)
    (hq : ¬(r % 5 ≠ 0 ∧ r < 395)) :
    evaluate model_keys testFn dl r params = (.exn "RuntimeError", []) ↔
      params.length < model_keys.length := by
  by_cases hlt : params.length < model_keys.length
  · constructor
    · intro _
      exact hlt
    · intro _
      simp [evaluate, if_neg hq, if_pos hlt]
  · constructor
    · intro h
      exfalso
      have h2 := congrArg Prod.snd h
      simp only [evaluate, if_neg hq, if_neg hlt] at h2
      split at h2 <;> simp at h2
    · intro h
      exact absurd h hlt

/-- C2 witness: round 5 qualifies and an empty parameter list is shorter
than the one model key, so the call raises. -/
theorem claim_C2_witness :
    ¬((5 : ℕ) % 5 ≠ 0 ∧ (5 : ℕ) < 395) ∧
    evaluate ["w"] (fun (_ : ℕ) (_ : Option ℕ) => ((2 : ℚ), 3))
      (DataLoaders.mk 0 [] [] 1) 5 ([] : List ℚ) =
      (.exn "RuntimeError", []) :=
  ⟨by decide,
   (claim_C2_amended ["w"] (fun (_ : ℕ) (_ : Option ℕ) => ((2 : ℚ), 3))
     (DataLoaders.mk 0 [] [] 1) 5 ([] : List ℚ) (by decide)).mpr (by decide)⟩

/-- C3: the callback returns the sentinel `(1, {})` with no action at all
exactly on the non-qualifying rounds (`round % 5 ≠ 0` and `round < 395`);
on every other round (given well-formed inputs) it performs the complete
evaluation pass. -/
theorem claim_C3 {L B P : Type} (model_keys : List String)
    (testFn : L → Option B → ℚ × ℚ) (dl : DataLoaders L B)
    (r : ℕ) (params : List P)
    (h1 : model_keys.length ≤ params.length)
    (h2 : dl.valloaders.length ≤ dl.label_split.length) :
    (evaluate model_keys testFn dl r params = (.ok 1 [], []) ↔
      (r % 5 ≠ 0 ∧ r < 395)) ∧
    (¬(r % 5 ≠ 0 ∧ r < 395) →
      evaluate model_keys testFn dl r params =
        (.ok (testFn dl.testloader none).1
          [("global_accuracy", (testFn dl.testloader none).2),
           ("local_loss", ((dl.valloaders.zip dl.label_split).map
              fun p => (testFn p.1 (some p.2)).1).sum),
           ("local_accuracy", ((dl.valloaders.zip dl.label_split).map
              fun p => (testFn p.1 (some p.2)).2).sum)],
         EvEvent.loadParams ::
           (if r % 100 = 0 then
              [EvEvent.saveCheckpoint
                ("model_after_round_" ++ toString r ++ ".pth")]
            else []) ++
           [EvEvent.statsPass] ++
           (List.range' 0 dl.valloaders.length).map EvEvent.testClient ++
           [EvEvent.testGlobal])) := by
  by_cases hq : r % 5 ≠ 0 ∧ r < 395
  · constructor
    · simp [evaluate, if_pos hq, hq]
    · intro h
      exact absurd hq h
  · have hfull := evaluate_full model_keys testFn dl r params hq h1 h2
    constructor
    · rw [hfull]
      constructor
      · intro h
        have hsnd := congrArg Prod.snd h
        simp at hsnd
      · intro h
        exact absurd h hq
    · intro _
      exact hfull

/-- C3 witness: round 3 returns the sentinel `(1, {})` with an empty event
trace, and round 3 is indeed non-qualifying. -/
theorem claim_C3_witness :
    (evaluate ["w"] (fun (_ : ℕ) (_ : Option ℕ) => ((2 : ℚ), 3))
      (DataLoaders.mk 0 [] [] 1) 3 [(5 : ℚ)] = (.ok 1 [], []) ↔
      ((3 : ℕ) % 5 ≠ 0 ∧ (3 : ℕ) < 395)) ∧
    ((3 : ℕ) % 5 ≠ 0 ∧ (3 : ℕ) < 395) :=
  ⟨(claim_C3 ["w"] (fun (_ : ℕ) (_ : Option ℕ) => ((2 : ℚ), 3))
      (DataLoaders.mk 0 [] [] 1) 3 [(5 : ℚ)] (by decide) (by decide)).1,
   by decide⟩

/-- C6: provided the parameter list covers the model keys, the callback
emits a checkpoint-write event if and only if `round % 100 = 0` (every such
round qualifies, 100 being a multiple of 5), and any checkpoint written is
named `model_after_round_<round>.pth`, determined solely by the round. -/
theorem claim_C6 {L B P : Type} (model_keys : List String)
    (testFn : L → Option B → ℚ × ℚ) (dl : DataLoaders L B)
    (r : ℕ) (params : List P)
    (h1 : model_keys.length ≤ params.length) :
    ((∃ s, EvEvent.saveCheckpoint s ∈ (evaluate model_keys testFn dl r params).2)
      ↔ r % 100 = 0) ∧
    (∀ s, EvEvent.saveCheckpoint s ∈ (evaluate model_keys testFn dl r params).2 →
      s = "model_after_round_" ++ toString r ++ ".pth") := by
  have key : ∀ s,
      EvEvent.saveCheckpoint s ∈ (evaluate model_keys testFn dl r params).2 ↔
        (r % 100 = 0 ∧ s = "model_after_round_" ++ toString r ++ ".pth") := by
    intro s
    by_cases hq : r % 5 ≠ 0 ∧ r < 395
    · have h100 : ¬ r % 100 = 0 := by
        intro h0
        exact hq.1 (by omega)
      simp [evaluate, if_pos hq, h100]
    · have hnl : ¬ params.length < model_keys.length := by omega
      have hnotcl : EvEvent.saveCheckpoint s ∉
          (clientLoop testFn dl.label_split 0 dl.valloaders 0 0).2 := by
        intro hmem
        obtain ⟨j, hj⟩ :=
          clientLoop_events testFn dl.label_split dl.valloaders 0 0 0 _ hmem
        exact EvEvent.noConfusion hj
      simp only [evaluate, if_neg hq, if_neg hnl]
      by_cases hck : r % 100 = 0
      · split <;> simp [hck, hnotcl]
      · split <;> simp [hck, hnotcl]
  constructor
  · constructor
    · rintro ⟨s, hs⟩
      exact ((key s).mp hs).1
    · intro h100
      exact ⟨"model_after_round_" ++ toString r ++ ".pth",
        (key _).mpr ⟨h100, rfl⟩⟩
  · intro s hs
    exact ((key s).mp hs).2

/-- C6 witness: at round 100 a checkpoint event exists and every checkpoint
event carries the round-100 file name; at round 10 (qualifying but not a
multiple of 100) the same theorem shows no checkpoint event exists. -/
theorem claim_C6_witness :
    ((∃ s, EvEvent.saveCheckpoint s ∈
      (evaluate ["w"] (fun (_ : ℕ) (_ : Option ℕ) => ((2 : ℚ), 3))
        (DataLoaders.mk 0 [] [] 1) 100 [(5 : ℚ)]).2) ↔ (100 : ℕ) % 100 = 0) ∧
    ((∃ s, EvEvent.saveCheckpoint s ∈
      (evaluate ["w"] (fun (_ : ℕ) (_ : Option ℕ) => ((2 : ℚ), 3))
        (DataLoaders.mk 0 [] [] 1) 10 [(5 : ℚ)]).2) ↔ (10 : ℕ) % 100 = 0) :=
  ⟨(claim_C6 ["w"] (fun (_ : ℕ) (_ : Option ℕ) => ((2 : ℚ), 3))
      (DataLoaders.mk 0 [] [] 1) 100 [(5 : ℚ)] (by decide)).1,
   (claim_C6 ["w"] (fun (_ : ℕ) (_ : Option ℕ) => ((2 : ℚ), 3))
      (DataLoaders.mk 0 [] [] 1) 10 [(5 : ℚ)] (by decide)).1⟩

/-- C7: on a qualifying round the returned `local_loss`/`local_accuracy`
are the exact sums (not means) of the per-client test results, the return
value is `(global_loss, {global_accuracy, local_loss, local_accuracy})`,
and the global test runs exactly once. -/
theorem claim_C7 {L B P : Type} (model_keys : List String)
    (testFn : L → Option B → ℚ × ℚ) (dl : DataLoaders L B)
    (r : ℕ) (params : List P)
    (hq : ¬(r % 5 ≠ 0 ∧ r < 395))
    (h1 : model_keys.length ≤ params.length)
    (h2 : dl.valloaders.length ≤ dl.label_split.length) :
    (evaluate model_keys testFn dl r params).1 =
      .ok (testFn dl.testloader none).1
        [("global_accuracy", (testFn dl.testloader none).2),
         ("local_loss", ((dl.valloaders.zip dl.label_split).map
            fun p => (testFn p.1 (some p.2)).1).sum),
         ("local_accuracy", ((dl.valloaders.zip dl.label_split).map
            fun p => (testFn p.1 (some p.2)).2).sum)] ∧
    (evaluate model_keys testFn dl r params).2.count EvEvent.testGlobal = 1 := by
  have hfull := evaluate_full model_keys testFn dl r params hq h1 h2
  rw [hfull]
  refine ⟨rfl, ?_⟩
  by_cases hck : r % 100 = 0 <;>
    simp [hck, List.count_append, List.count_cons, List.count_eq_zero,
      List.mem_map]

/-- C7 witness: three client loaders with distinct test results; the
returned local metrics are their sums and the global test runs once. -/
theorem claim_C7_witness :
    (evaluate ["w"] (fun (l : ℕ) (_ : Option ℕ) => ((l : ℚ), (l : ℚ) + 1))
      (DataLoaders.mk 0 [10, 20, 30] [1, 2, 3] 5) 10 [(0 : ℚ)]).1 =
      .ok ((5 : ℕ) : ℚ)
        [("global_accuracy", ((5 : ℕ) : ℚ) + 1),
         ("local_loss", (([10, 20, 30].zip [1, 2, 3]).map
            fun p => (((fun (l : ℕ) (_ : Option ℕ) => ((l : ℚ), (l : ℚ) + 1))
              p.1 (some p.2)).1)).sum),
         ("local_accuracy", (([10, 20, 30].zip [1, 2, 3]).map
            fun p => (((fun (l : ℕ) (_ : Option ℕ) => ((l : ℚ), (l : ℚ) + 1))
              p.1 (some p.2)).2)).sum)] ∧
    (evaluate ["w"] (fun (l : ℕ) (_ : Option ℕ) => ((l : ℚ), (l : ℚ) + 1))
      (DataLoaders.mk 0 [10, 20, 30] [1, 2, 3] 5) 10 [(0 : ℚ)]).2.count
      EvEvent.testGlobal = 1 :=
  claim_C7 ["w"] (fun (l : ℕ) (_ : Option ℕ) => ((l : ℚ), (l : ℚ) + 1))
    (DataLoaders.mk 0 [10, 20, 30] [1, 2, 3] 5) 10 [(0 : ℚ)]
    (by decide) (by decide) (by decide)

/-- C9: on a qualifying round with an empty list of client test loaders the
callback does not crash: the accumulation loop is skipped, the returned
local metrics are both exactly 0, and the global evaluation still runs. -/
theorem claim_C9 {L B P : Type} (model_keys : List String)
    (testFn : L → Option B → ℚ × ℚ) (dl : DataLoaders L B)
    (r : ℕ) (params : List P)
    (hq : ¬(r % 5 ≠ 0 ∧ r < 395))
    (h1 : model_keys.length ≤ params.length)
    (hempty : dl.valloaders = []) :
    evaluate model_keys testFn dl r params =
      (.ok (testFn dl.testloader none).1
        [("global_accuracy", (testFn dl.testloader none).2),
         ("local_loss", 0), ("local_accuracy", 0)],
       EvEvent.loadParams ::
         (if r % 100 = 0 then
            [EvEvent.saveCheckpoint
              ("model_after_round_" ++ toString r ++ ".pth")]
          else []) ++
         [EvEvent.statsPass, EvEvent.testGlobal]) := by
  have h2 : dl.valloaders.length ≤ dl.label_split.length := by
    rw [hempty]
    simp
  have hfull := evaluate_full model_keys testFn dl r params hq h1 h2
  rw [hfull, hempty]
  simp

/-- C9 witness: round 396 (past the late-stage threshold) with zero client
loaders returns zero local metrics and still performs the global test. -/
theorem claim_C9_witness :
    evaluate ["w"] (fun (_ : ℕ) (_ : Option ℕ) => ((2 : ℚ), 3))
      (DataLoaders.mk 0 [] [] 1) 396 [(5 : ℚ)] =
      (.ok 2 [("global_accuracy", 3), ("local_loss", 0),
              ("local_accuracy", 0)],
       EvEvent.loadParams ::
         (if (396 : ℕ) % 100 = 0 then
            [EvEvent.saveCheckpoint
              ("model_after_round_" ++ toString (396 : ℕ) ++ ".pth")]
          else []) ++
         [EvEvent.statsPass, EvEvent.testGlobal]) :=
  claim_C9 ["w"] (fun (_ : ℕ) (_ : Option ℕ) => ((2 : ℚ), 3))
    (DataLoaders.mk 0 [] [] 1) 396 [(5 : ℚ)] (by decide) (by decide) rfl

end HeteroFL
